import Mathlib

/-!
Verification of the py_tools notice-publish pipeline.

Python strings are modelled as `List Char` (`PyStr`).  `str.replace` is
modelled by `pyReplace`: a left-to-right scan replacing non-overlapping
occurrences and continuing after the inserted replacement, exactly as
CPython does for non-empty patterns.
-/

abbrev PyStr := List Char

/-- Fuel-indexed scan for `str.replace`; the fuel is an upper bound on the
length of the string, so that the definition is structurally recursive and
kernel-reducible. -/
def pyReplaceAux (p q : PyStr) : Nat → PyStr → PyStr
  | 0, s => s
  | _ + 1, [] => []
  | n + 1, c :: rest =>
    if p.isPrefixOf (c :: rest) then
      q ++ pyReplaceAux p q n (rest.drop (p.length - 1))
    else
      c :: pyReplaceAux p q n rest

/-- Model of Python `s.replace(p, q)` (for non-empty patterns `p`, which is
the only way the repository uses `replace`). -/
def pyReplace (p q s : PyStr) : PyStr := pyReplaceAux p q s.length s

/-- Model of `normalize_content_text` from `src/app/notice/gen_notice_json.py`:
the chain of eight `str.replace` calls, applied in source order. -/
def normalize_content_text (content : PyStr) : PyStr :=
  pyReplace "\\r".data "\n".data
    (pyReplace "\\n".data "\n".data
      (pyReplace "\\r\\n".data "\n".data
        (pyReplace "`r".data "\n".data
          (pyReplace "`n".data "\n".data
            (pyReplace "`r`n".data "\n".data
              (pyReplace "\r".data "\n".data
                (pyReplace "\r\n".data "\n".data content)))))))

/-! ## Python `strip` helpers -/

/-- Python `s.strip(chars)`, left side only. -/
def pyLStripSet (cs : List Char) (s : PyStr) : PyStr :=
  s.dropWhile (fun c => cs.contains c)

/-- Python `s.rstrip(chars)`. -/
def pyRStripSet (cs : List Char) (s : PyStr) : PyStr :=
  (s.reverse.dropWhile (fun c => cs.contains c)).reverse

/-- Python `s.strip(chars)`. -/
def pyStripSet (cs : List Char) (s : PyStr) : PyStr :=
  pyRStripSet cs (pyLStripSet cs s)

/-- ASCII whitespace, the only whitespace this repository ever feeds to
`str.strip()`. -/
def isPySpace (c : Char) : Bool :=
  c = ' ' || c = '\t' || c = '\n' || c = '\r' || c = '\x0b' || c = '\x0c'

/-- Python `s.strip()` (no argument). -/
def pyStripWs (s : PyStr) : PyStr :=
  ((s.dropWhile isPySpace).reverse.dropWhile isPySpace).reverse

/-! ## Environment abstraction

The pipeline touches the file system, subprocesses, stdin and an HTTP
webhook.  These effects are modelled by an explicit environment record;
each run of the pipeline is a pure function of the environment and the
arguments, returning an exit value together with the ordered list of
performed effects. -/

inductive SpawnOutcome where
  | ret (code : Int)
  | notFound
  | osError (msg : PyStr)
deriving DecidableEq

structure Env where
  resolvePath : PyStr → PyStr
  pathExists : PyStr → Bool
  isDir : PyStr → Bool
  run : List PyStr → SpawnOutcome
  stdinText : PyStr
  readFile : PyStr → PyStr
  b64decode : PyStr → Except PyStr PyStr
  shlexQuote : PyStr → PyStr
  root : PyStr
  rootParent : PyStr
  scriptDir : PyStr
  isAbsolute : PyStr → Bool
  wecomErrcode : PyStr → Int
  wecomErrmsg : PyStr → Option PyStr

inductive Event where
  | info (msg : PyStr)
  | warn (msg : PyStr)
  | err (msg : PyStr)
  | fileRead (path : PyStr)
  | stdinRead
  | mkdirDir (path : PyStr)
  | fileWrite (path : PyStr) (text : PyStr)
  | procSpawn (cmd : List PyStr)
  | httpPost (content : PyStr)
deriving DecidableEq

/-! ## `src/infra/oss/upload_oss.py` -/

def PROD_OSS_HOST : PyStr := "oss://meowgames-resource-prod/cattie/".data

def TEST_OSS_HOST : PyStr := "oss://meowgames-resource-test/cattie/".data

/-- Model of `choose_oss_host`: stage `"2"` selects the production host, anything
else the test host. -/
def choose_oss_host (stage : PyStr) : PyStr :=
  if stage = "2".data then PROD_OSS_HOST else TEST_OSS_HOST

/-- Model of `normalize_remote_path`: convert backslashes to forward slashes, then
require the `oss://` scheme prefix. -/
def normalize_remote_path (path : PyStr) : Except PyStr PyStr :=
  let normalized := pyReplace "\\".data "/".data path
  if "oss://".data.isPrefixOf normalized then Except.ok normalized
  else Except.error ("OSS 目标路径必须以 oss:// 开头，当前为: ".data ++ path)

/-- Python `sep.join(parts)`. -/
def joinWith (sep : PyStr) : List PyStr → PyStr
  | [] => []
  | [x] => x
  | x :: xs => x ++ sep ++ joinWith sep xs

/-- The derivation branch shared by `build_target` and the inline code in
`upload_oss`: host (stage-selected), then channel and remote subdirectory
with leading/trailing slashes stripped, empty segments omitted, joined with
`/` and a trailing `/` appended. -/
def buildTargetParts (stage channel remote_subdir : PyStr) : Except PyStr PyStr :=
  let host := choose_oss_host stage
  let channelName := pyStripSet ['/'] channel
  let remoteName := pyStripSet ['/'] remote_subdir
  let parts := [pyRStripSet ['/'] host]
    ++ (if channelName ≠ [] then [channelName] else [])
    ++ (if remoteName ≠ [] then [remoteName] else [])
  normalize_remote_path (joinWith "/".data parts ++ "/".data)

/-- Model of `build_target`: an explicit (truthy) target is validated and
normalized; otherwise the target is derived from stage, channel and remote
subdirectory. -/
def build_target (target stage channel remote_subdir : PyStr) :
    Except PyStr PyStr :=
  if target ≠ [] then normalize_remote_path target
  else buildTargetParts stage channel remote_subdir

/-- Model of `build_command`: the list `<ossutil> <action> <source> <target>` plus optional
`-c <config>`, `-f`, `-u`; action is `sync` for a directory source and
`cp` otherwise. -/
def build_command (env : Env) (source target ossutil config : PyStr)
    (force update : Bool) : List PyStr :=
  let action := if env.isDir source then "sync".data else "cp".data
  let cmd := [ossutil, action, source, target]
  let cmd2 := if config ≠ [] then cmd ++ ["-c".data, config] else cmd
  let cmd3 := if force then cmd2 ++ ["-f".data] else cmd2
  if update then cmd3 ++ ["-u".data] else cmd3

/-- The backslash-to-slash conversion in `normalize_remote_path`. -/
def mapSlash (s : PyStr) : PyStr := s.map (fun c => if c = '\\' then '/' else c)

/-- Number of `/` characters at the very end of a string. -/
def trailingSlashes (s : PyStr) : Nat :=
  (s.reverse.takeWhile (fun c => c = '/')).length

/-! ## `src/app/notice/gen_notice_json.py` -/

/-- Model of `validate_required`: reject a value that is empty after trimming,
return it unchanged otherwise. -/
def validate_required (name value : PyStr) : Except PyStr PyStr :=
  if pyStripWs value = [] then Except.error (name ++ " 不能为空".data)
  else Except.ok value

/-- Model of `validate_environment`: accept exactly the literals `test` and `prod`. -/
def validate_environment (value : PyStr) : Except PyStr PyStr :=
  if value ∈ ["test".data, "prod".data] then Except.ok value
  else Except.error ("环境参数无效: ".data ++ value)

/-! ## JSON serialization (`json.dumps(..., ensure_ascii=False, indent=2)`)
and a matching reader used to state the round-trip property (C7). -/

def hexChar (n : Nat) : Char :=
  if n < 10 then Char.ofNat ('0'.toNat + n)
  else Char.ofNat ('a'.toNat + (n - 10))

/-- CPython's JSON string-escape table with `ensure_ascii=False`: quote,
backslash and the C0 control characters are escaped, everything else (including
non-ASCII) is emitted verbatim. -/
def escapeChar (c : Char) : PyStr :=
  if c = '"' then ['\\', '"']
  else if c = '\\' then ['\\', '\\']
  else if c = '\n' then ['\\', 'n']
  else if c = '\r' then ['\\', 'r']
  else if c = '\t' then ['\\', 't']
  else if c = '\x08' then ['\\', 'b']
  else if c = '\x0c' then ['\\', 'f']
  else if c.toNat < 0x20 then
    ['\\', 'u', '0', '0', hexChar (c.toNat / 16), hexChar (c.toNat % 16)]
  else [c]

def escapeStr : PyStr → PyStr
  | [] => []
  | c :: rest => escapeChar c ++ escapeStr rest

/-- One `  "key": "value"` line of the 2-space indented object. -/
def pyJsonEntry (kv : PyStr × PyStr) : PyStr :=
  "  \"".data ++ escapeStr kv.1 ++ "\": \"".data ++ escapeStr kv.2 ++ "\"".data

/-- The `",\n".join` of the entry lines. -/
def entryLines : List (PyStr × PyStr) → PyStr
  | [] => []
  | [kv] => pyJsonEntry kv
  | kv :: rest => pyJsonEntry kv ++ ",\n".data ++ entryLines rest

/-- Model of `json.dumps` of a flat string-to-string mapping with
`ensure_ascii=False, indent=2`. -/
def pyJsonDumps (d : List (PyStr × PyStr)) : PyStr :=
  match d with
  | [] => "\x7b\x7d".data
  | _ => "\x7b\n".data ++ entryLines d ++ "\n\x7d".data

def parseHexDigit (c : Char) : Option Nat :=
  if '0' ≤ c ∧ c ≤ '9' then some (c.toNat - '0'.toNat)
  else if 'a' ≤ c ∧ c ≤ 'f' then some (c.toNat - 'a'.toNat + 10)
  else if 'A' ≤ c ∧ c ≤ 'F' then some (c.toNat - 'A'.toNat + 10)
  else none

/-- The single-character JSON escapes. -/
def unescapeChar (e : Char) : Option Char :=
  if e = '"' then some '"'
  else if e = '\\' then some '\\'
  else if e = 'n' then some '\n'
  else if e = 'r' then some '\r'
  else if e = 't' then some '\t'
  else if e = 'b' then some '\x08'
  else if e = 'f' then some '\x0c'
  else none

/-- Read a JSON string body up to its closing quote, undoing the escapes;
returns the decoded string and the remaining input. -/
def parseJString : PyStr → Option (PyStr × PyStr)
  | [] => none
  | c :: rest =>
    if c = '"' then some ([], rest)
    else if c = '\\' then
      match rest with
      | [] => none
      | e :: r2 =>
        if e = 'u' then
          match r2 with
          | h1 :: h2 :: h3 :: h4 :: r3 =>
            match parseHexDigit h1, parseHexDigit h2, parseHexDigit h3,
                parseHexDigit h4 with
            | some a, some b, some c2, some d =>
              (parseJString r3).map
                (fun p =>
                  (Char.ofNat (((a * 16 + b) * 16 + c2) * 16 + d) :: p.1, p.2))
            | _, _, _, _ => none
          | _ => none
        else
          match unescapeChar e with
          | some ch => (parseJString r2).map (fun p => (ch :: p.1, p.2))
          | none => none
    else (parseJString rest).map (fun p => (c :: p.1, p.2))

/-- Read the `  "k": "v"` lines of a 2-space indented object, separated by
`",\n"` and terminated by `"\n\x7d"` at end of input. -/
def parseEntriesAux : Nat → PyStr → Option (List (PyStr × PyStr))
  | 0, _ => none
  | fuel + 1, s =>
    match s with
    | c1 :: c2 :: c3 :: rest =>
      if c1 = ' ' ∧ c2 = ' ' ∧ c3 = '"' then
        match parseJString rest with
        | none => none
        | some (k, rest1) =>
          match rest1 with
          | d1 :: d2 :: d3 :: rest2 =>
            if d1 = ':' ∧ d2 = ' ' ∧ d3 = '"' then
              match parseJString rest2 with
              | none => none
              | some (v, rest3) =>
                match rest3 with
                | e1 :: e2 :: rest4 =>
                  if e1 = ',' ∧ e2 = '\n' then
                    (parseEntriesAux fuel rest4).map (fun es => (k, v) :: es)
                  else if e1 = '\n' ∧ e2 = '\x7d' ∧ rest4 = [] then
                    some [(k, v)]
                  else none
                | _ => none
            else none
          | _ => none
      else none
    | _ => none

def parseEntries (s : PyStr) : Option (List (PyStr × PyStr)) :=
  parseEntriesAux s.length s

/-- Reader for exactly the object layout `pyJsonDumps` produces. -/
def parseJsonObj (s : PyStr) : Option (List (PyStr × PyStr)) :=
  match s with
  | '\x7b' :: '\x7d' :: [] => some []
  | '\x7b' :: '\n' :: rest => parseEntries rest
  | _ => none

/-- The immutable notice record of `gen_notice_json.py`. -/
structure Notice where
  channel : PyStr
  environment : PyStr
  title : PyStr
  author : PyStr
  theme : PyStr
  content : PyStr
deriving DecidableEq

/-- Model of `Notice.to_dict`: the field mapping in its literal key order. -/
def Notice.to_dict (n : Notice) : List (PyStr × PyStr) :=
  [("channel".data, n.channel), ("environment".data, n.environment),
   ("title".data, n.title), ("author".data, n.author),
   ("theme".data, n.theme), ("content".data, n.content)]

/-- Model of `build_notice`. -/
def build_notice (channel environment title author theme content : PyStr) :
    Notice :=
  { channel := channel, environment := environment, title := title,
    author := author, theme := theme, content := content }

/-- The serialization used by `write_json_file`: it serializes with
`json.dumps(data, ensure_ascii=False, indent=2)`; the serialized text. -/
def write_json_text (data : List (PyStr × PyStr)) : PyStr :=
  pyJsonDumps data

/-! ## The upload executor (`upload_oss`) over the effect environment -/

def intStr (i : Int) : PyStr := (toString i).data

/-- Model of `default_ossutil_path`: first existing candidate under the repository
root, else the bare name `ossutil` resolved through `PATH`. -/
def default_ossutil_path (io : Env) : PyStr :=
  let candidates := [io.root ++ "/infra/ossutil/ossutil.exe".data,
    io.root ++ "/jekins_tools/publish/ossutil/ossutil.exe".data,
    io.rootParent ++ "/jekins_tools/publish/ossutil/ossutil.exe".data]
  match candidates.find? (fun c => io.pathExists c) with
  | some c => c
  | none => "ossutil".data

/-- Model of `default_config_path`: first existing candidate, else the first
candidate path itself. -/
def default_config_path (io : Env) : PyStr :=
  let candidates := [io.root ++ "/infra/ossutil/meowgames.ossutilconfig".data,
    io.root ++ "/jekins_tools/publish/ossutil/meowgames.ossutilconfig".data,
    io.rootParent ++ "/jekins_tools/publish/ossutil/meowgames.ossutilconfig".data]
  match candidates.find? (fun c => io.pathExists c) with
  | some c => c
  | none => io.root ++ "/infra/ossutil/meowgames.ossutilconfig".data

/-- Model of `upload_oss`: returns the exit code and the ordered effects, or an
uncaught `ValueError` from remote-path validation. -/
def upload_oss (io : Env) (source target stage channel remote_subdir
    ossutil config : PyStr) (update force dry_run : Bool) :
    Except PyStr (Int × List Event) :=
  let source_path := io.resolvePath source
  if io.pathExists source_path = false then
    Except.ok (1, [Event.err ("[ERROR] 本地路径不存在: ".data ++ source_path)])
  else
    match (if target ≠ [] then normalize_remote_path target
           else buildTargetParts stage channel remote_subdir) with
    | Except.error e => Except.error e
    | Except.ok resolved_target =>
      let resolved_ossutil :=
        if ossutil ≠ [] then ossutil else default_ossutil_path io
      let config0 := if config ≠ [] then config else default_config_path io
      let configMissing := config0 ≠ [] ∧ io.pathExists config0 = false
      let warnEvents :=
        if configMissing then
          [Event.warn ("[WARN] 未找到 ossutil 配置文件: ".data ++ config0),
           Event.warn "       将尝试使用 ossutil 默认配置（如环境变量或用户级配置）".data]
        else []
      let resolved_config := if configMissing then [] else config0
      let command := build_command io source_path resolved_target
        resolved_ossutil resolved_config force update
      let pre := warnEvents ++
        [Event.info ("[INFO] 上传类型: ".data ++
           (if io.isDir source_path then "目录 sync".data else "文件 cp".data)),
         Event.info ("[INFO] 本地路径: ".data ++ source_path),
         Event.info ("[INFO] OSS 目标: ".data ++ resolved_target),
         Event.info ("[INFO] 执行命令: ".data ++
           joinWith " ".data (command.map io.shlexQuote))]
      if dry_run then
        Except.ok (0, pre ++ [Event.info "[INFO] dry-run 模式，未执行上传".data])
      else
        match io.run command with
        | SpawnOutcome.ret code =>
          if code ≠ 0 then
            Except.ok (code, pre ++ [Event.procSpawn command,
              Event.err ("[ERROR] 上传失败，退出码: ".data ++ intStr code)])
          else
            Except.ok (0, pre ++ [Event.procSpawn command,
              Event.info "[INFO] 上传完成".data])
        | SpawnOutcome.notFound =>
          Except.ok (1, pre ++ [Event.procSpawn command,
            Event.err ("[ERROR] 找不到 ossutil 可执行文件: ".data ++
              resolved_ossutil),
            Event.err "       请通过 --ossutil 指定绝对路径，或将 ossutil 加入 PATH".data])
        | SpawnOutcome.osError msg =>
          Except.ok (1, pre ++ [Event.procSpawn command,
            Event.err ("[ERROR] 执行失败: ".data ++ msg)])

/-! ## The notice pipeline (`gen_notice_json.py` main path) -/

structure RawArgs where
  channel : PyStr
  env : PyStr
  title : Option (List PyStr)
  author : Option (List PyStr)
  theme : Option (List PyStr)
  content : Option (List PyStr)
  content_base64 : Option PyStr
  content_file : Option PyStr
  content_stdin : Bool
  output_dir : PyStr
  file_name : PyStr

structure ParsedArgs where
  channel : PyStr
  env : PyStr
  title : PyStr
  author : PyStr
  theme : PyStr
  content : PyStr
  output_dir : PyStr
  file_name : PyStr

/-- Model of `normalize_text_arg`: `None` becomes the empty string, a token list is
joined with single spaces. -/
def normalize_text_arg (v : Option (List PyStr)) : PyStr :=
  match v with
  | none => []
  | some parts => joinWith " ".data parts

/-- Model of `normalize_content_arg`: like `normalize_text_arg` but joining with
newlines. -/
def normalize_content_arg (v : Option (List PyStr)) : PyStr :=
  match v with
  | none => []
  | some parts => joinWith "\n".data parts

/-- Python truthiness of an optional token list (`bool(args.content)`). -/
def truthyList (v : Option (List PyStr)) : Bool :=
  match v with
  | none => false
  | some l => !l.isEmpty

/-- Python truthiness of an optional string. -/
def truthyStr (v : Option PyStr) : Bool :=
  match v with
  | none => false
  | some s => !s.isEmpty

/-- The `content_sources_count` value: the truthiness-based count the parser checks. -/
def truthySourceCount (a : RawArgs) : Nat :=
  (if truthyList a.content then 1 else 0) +
  (if truthyStr a.content_base64 then 1 else 0) +
  (if truthyStr a.content_file then 1 else 0) +
  (if a.content_stdin then 1 else 0)

/-- The count of content sources actually supplied on the command line
(what the spec calls "supplied"). -/
def suppliedSourceCount (a : RawArgs) : Nat :=
  (if a.content.isSome then 1 else 0) +
  (if a.content_base64.isSome then 1 else 0) +
  (if a.content_file.isSome then 1 else 0) +
  (if a.content_stdin then 1 else 0)

/-- Model of `resolve_content`: base64 > file > stdin > inline literal, each branch
guarded by Python truthiness; the performed reads are recorded. -/
def resolve_content (io : Env) (a : RawArgs) :
    Except PyStr (PyStr × List Event) :=
  if truthyStr a.content_base64 then
    match io.b64decode (a.content_base64.getD []) with
    | Except.error e => Except.error e
    | Except.ok decoded => Except.ok (normalize_content_text decoded, [])
  else if truthyStr a.content_file then
    let f := io.resolvePath (a.content_file.getD [])
    if io.pathExists f = false then
      Except.error ("content 文件不存在: ".data ++ f)
    else
      Except.ok (normalize_content_text (io.readFile f), [Event.fileRead f])
  else if a.content_stdin then
    Except.ok (normalize_content_text io.stdinText, [Event.stdinRead])
  else
    Except.ok (normalize_content_text (normalize_content_arg a.content), [])

/-- Model of `parse_args` after argparse has bound the raw values: text
normalization, the mutual-exclusivity check on the truthy source count,
then content resolution. -/
def parse_args (io : Env) (a : RawArgs) :
    Except PyStr (ParsedArgs × List Event) :=
  let title := normalize_text_arg a.title
  let author := normalize_text_arg a.author
  let theme := normalize_text_arg a.theme
  if truthySourceCount a = 0 then
    Except.error "缺少公告内容，请使用 --content / --content-base64 / --content-file / --content-stdin 之一".data
  else if truthySourceCount a > 1 then
    Except.error "--content / --content-base64 / --content-file / --content-stdin 只能传一个".data
  else
    match resolve_content io a with
    | Except.error e => Except.error e
    | Except.ok (content, evs) =>
      Except.ok ({ channel := a.channel, env := a.env, title := title,
                   author := author, theme := theme, content := content,
                   output_dir := a.output_dir, file_name := a.file_name },
                 evs)

/-- Model of `get_oss_upload_params`. -/
def get_oss_upload_params (aEnv aChannel : PyStr) :
    Except PyStr (PyStr × PyStr) :=
  let stage := if aEnv = "prod".data then "2".data else "1".data
  let channel := pyStripWs aChannel
  if channel = [] then Except.error "渠道不能为空".data
  else Except.ok (stage, channel)

/-- Model of `upload_to_oss`: call `upload_oss` with the derived stage/channel and
raise on a non-zero result. -/
def upload_to_oss (io : Env) (aEnv aChannel local_file : PyStr) :
    Except PyStr (List Event) :=
  match get_oss_upload_params aEnv aChannel with
  | Except.error e => Except.error e
  | Except.ok (stage, channel) =>
    match upload_oss io (io.resolvePath local_file) [] stage channel
        "notice/".data [] [] true true false with
    | Except.error e => Except.error e
    | Except.ok (code, evs) =>
      if code ≠ 0 then
        Except.error ("上传失败，退出码: ".data ++ intStr code)
      else Except.ok evs

/-- Model of `send_notify_markdown`: webhook POST; non-zero `errcode` raises with
the response's `errmsg` or a default. -/
def send_notify_markdown (io : Env) (content : PyStr) :
    Except PyStr (List Event) :=
  if io.wecomErrcode content ≠ 0 then
    Except.error ("发送企业微信通知失败: ".data ++
      ((io.wecomErrmsg content).getD "未知错误".data))
  else Except.ok [Event.httpPost content]

/-- Model of `resolve_output_dir`: absolute paths verbatim, relative paths anchored
at the script directory. -/
def resolve_output_dir (io : Env) (raw : PyStr) : PyStr :=
  if io.isAbsolute raw then raw else io.scriptDir ++ "/".data ++ raw

/-- The pipeline `main`, as a pure function of the environment and parsed
inputs: an uncaught exception is `Except.error`, a normal return is
`Except.ok (0, events)`. -/
def mainPipeline (io : Env) (a : RawArgs) : Except PyStr (Int × List Event) :=
  match parse_args io a with
  | Except.error e => Except.error e
  | Except.ok (args, evs0) =>
    match validate_required "渠道".data args.channel with
    | Except.error e => Except.error e
    | Except.ok channel =>
      match validate_required "环境".data args.env with
      | Except.error e => Except.error e
      | Except.ok env0 =>
        match validate_environment env0 with
        | Except.error e => Except.error e
        | Except.ok envv =>
          match validate_required "标题".data args.title with
          | Except.error e => Except.error e
          | Except.ok title =>
            match validate_required "作者".data args.author with
            | Except.error e => Except.error e
            | Except.ok author =>
              match validate_required "内容".data args.content with
              | Except.error e => Except.error e
              | Except.ok content =>
                let notice := build_notice channel envv title author
                  args.theme content
                let output_dir := resolve_output_dir io args.output_dir
                let output_path := output_dir ++ "/".data ++ args.file_name
                let json_text := write_json_text notice.to_dict
                let evs1 := evs0 ++ [Event.mkdirDir output_dir,
                  Event.fileWrite output_path json_text,
                  Event.info ("JSON 已生成: ".data ++ output_path),
                  Event.info json_text]
                match upload_to_oss io args.env args.channel output_path with
                | Except.error e => Except.error e
                | Except.ok evs2 =>
                  match send_notify_markdown io
                      ("# 公告更新\n".data ++ json_text) with
                  | Except.error e => Except.error e
                  | Except.ok evs3 => Except.ok (0, evs1 ++ evs2 ++ evs3)

/-- The process exit status of `raise SystemExit(main(sys.argv[1:]))`:
the returned integer, or 1 for an uncaught exception. -/
def processExit (r : Except PyStr (Int × List Event)) : Int :=
  match r with
  | Except.ok (code, _) => code
  | Except.error _ => 1

/-! ## Concrete environments and argument fixtures -/

/-- A benign environment in which every path exists, stdin holds `hello`,
the webhook succeeds, and the spawned uploader exits with code 2. -/
def envC : Env :=
  { resolvePath := fun p => p,
    pathExists := fun _ => true,
    isDir := fun _ => false,
    run := fun _ => SpawnOutcome.ret 2,
    stdinText := "hello".data,
    readFile := fun _ => [],
    b64decode := fun _ => Except.ok [],
    shlexQuote := fun p => p,
    root := "/repo".data,
    rootParent := "/".data,
    scriptDir := "/repo/app/notice".data,
    isAbsolute := fun _ => true,
    wecomErrcode := fun _ => 0,
    wecomErrmsg := fun _ => none }

/-- Two content sources supplied on the command line, one of them with an
empty value: `--content-base64 ""` together with `--content-stdin`. -/
def rawArgsTwoSources : RawArgs :=
  { channel := "ios".data, env := "prod".data,
    title := some ["t".data], author := some ["a".data], theme := none,
    content := none, content_base64 := some [], content_file := none,
    content_stdin := true,
    output_dir := ".".data, file_name := "notice_update.json".data }

def rawArgsNoSource : RawArgs :=
  { channel := "ios".data, env := "prod".data,
    title := some ["t".data], author := some ["a".data], theme := none,
    content := none, content_base64 := none, content_file := none,
    content_stdin := false,
    output_dir := ".".data, file_name := "notice_update.json".data }

def rawArgsTwoTruthy : RawArgs :=
  { channel := "ios".data, env := "prod".data,
    title := some ["t".data], author := some ["a".data], theme := none,
    content := some ["x".data], content_base64 := none, content_file := none,
    content_stdin := true,
    output_dir := ".".data, file_name := "notice_update.json".data }

/-- A well-formed invocation with a single (inline) content source. -/
def rawArgsOk : RawArgs :=
  { channel := "ios".data, env := "prod".data,
    title := some ["t".data], author := some ["a".data], theme := none,
    content := some ["hello".data], content_base64 := none,
    content_file := none, content_stdin := false,
    output_dir := ".".data, file_name := "notice_update.json".data }

/-- Environment for the C8 witness: the source file exists, nothing else
does (in particular no uploader config candidate). -/
def envC8 : Env :=
  { resolvePath := fun p => p,
    pathExists := fun p => decide (p = "/src.json".data),
    isDir := fun _ => false,
    run := fun _ => SpawnOutcome.ret 0,
    stdinText := [],
    readFile := fun _ => [],
    b64decode := fun _ => Except.ok [],
    shlexQuote := fun p => p,
    root := "/repo".data,
    rootParent := "/".data,
    scriptDir := "/repo/app/notice".data,
    isAbsolute := fun _ => true,
    wecomErrcode := fun _ => 0,
    wecomErrmsg := fun _ => none }

/-- Environment in which the whole pipeline succeeds. -/
def envOK : Env := { envC with run := fun _ => SpawnOutcome.ret 0 }

/-- A valid invocation whose channel carries surrounding whitespace. -/
def rawArgsWs : RawArgs := { rawArgsOk with channel := " ios ".data }

theorem pyReplaceAux_fuel (p q : PyStr) :
    ∀ (n m : Nat) (s : PyStr), s.length ≤ n → s.length ≤ m →
      pyReplaceAux p q n s = pyReplaceAux p q m s := by
  intro n
  induction n with
  | zero =>
    intro m s hn _
    have hs : s = [] := List.length_eq_zero.mp (Nat.le_zero.mp hn)
    subst hs
    cases m <;> rfl
  | succ n ih =>
    intro m s hn hm
    cases s with
    | nil => cases m <;> rfl
    | cons c rest =>
      cases m with
      | zero => simp at hm
      | succ m =>
        simp only [pyReplaceAux]
        by_cases h : p.isPrefixOf (c :: rest)
        · simp only [h, if_true]
          have hlen : rest.length ≤ n := by
            simpa using hn
          have hlen2 : rest.length ≤ m := by
            simpa using hm
          have h1 : (rest.drop (p.length - 1)).length ≤ n := by
            simp only [List.length_drop]
            omega
          have h2 : (rest.drop (p.length - 1)).length ≤ m := by
            simp only [List.length_drop]
            omega
          rw [ih m (rest.drop (p.length - 1)) h1 h2]
        · simp only [h, Bool.false_eq_true, if_false]
          have hlen : rest.length ≤ n := by simpa using hn
          have hlen2 : rest.length ≤ m := by simpa using hm
          rw [ih m rest hlen hlen2]

theorem pyReplace_nil (p q : PyStr) : pyReplace p q [] = [] := rfl

theorem pyReplace_cons (p q : PyStr) (c : Char) (rest : PyStr) :
    pyReplace p q (c :: rest) =
      if p.isPrefixOf (c :: rest) then
        q ++ pyReplace p q (rest.drop (p.length - 1))
      else
        c :: pyReplace p q rest := by
  show pyReplaceAux p q (rest.length + 1) (c :: rest) = _
  simp only [pyReplaceAux]
  by_cases h : p.isPrefixOf (c :: rest)
  · simp only [h, if_true]
    rw [pyReplaceAux_fuel p q rest.length (rest.drop (p.length - 1)).length
      (rest.drop (p.length - 1)) (by simp only [List.length_drop]; omega) le_rfl]
    rfl
  · simp only [h, Bool.false_eq_true, if_false]
    rfl

/-- A scan that never finds the pattern leaves the string unchanged. -/
theorem pyReplace_eq_self_aux (p q : PyStr) :
    ∀ (n : Nat) (s : PyStr), s.length ≤ n → ¬ p <:+: s → pyReplace p q s = s := by
  intro n
  induction n with
  | zero =>
    intro s hn _
    have hs : s = [] := List.length_eq_zero.mp (Nat.le_zero.mp hn)
    subst hs; rfl
  | succ n ih =>
    intro s hn hocc
    cases s with
    | nil => rfl
    | cons c rest =>
      rw [pyReplace_cons]
      have hpre : ¬ p.isPrefixOf (c :: rest) = true := by
        intro hp
        exact hocc ( List.isPrefixOf_iff_prefix.mp hp).isInfix
      simp only [hpre, Bool.false_eq_true, if_false]
      have hrest : ¬ p <:+: rest := fun h => hocc (List.infix_cons h)
      rw [ih rest (by simpa using hn) hrest]

theorem pyReplace_eq_self (p q s : PyStr) (h : ¬ p <:+: s) : pyReplace p q s = s :=
  pyReplace_eq_self_aux p q s.length s le_rfl h

/-- Every character of the output comes from the input or the replacement. -/
theorem mem_pyReplace_aux (p q : PyStr) (a : Char) :
    ∀ (n : Nat) (s : PyStr), s.length ≤ n → a ∈ pyReplace p q s → a ∈ s ∨ a ∈ q := by
  intro n
  induction n with
  | zero =>
    intro s hn ha
    have hs : s = [] := List.length_eq_zero.mp (Nat.le_zero.mp hn)
    subst hs; simp [pyReplace_nil] at ha
  | succ n ih =>
    intro s hn ha
    cases s with
    | nil => simp [pyReplace_nil] at ha
    | cons c rest =>
      rw [pyReplace_cons] at ha
      by_cases hpre : p.isPrefixOf (c :: rest) = true
      · simp only [hpre, if_true] at ha
        rcases List.mem_append.mp ha with hq | hm
        · exact Or.inr hq
        · have hlen : (rest.drop (p.length - 1)).length ≤ n := by
            simp only [List.length_drop]
            have : rest.length ≤ n := by simpa using hn
            omega
          rcases ih (rest.drop (p.length - 1)) hlen hm with hs | hq
          · exact Or.inl (List.mem_cons_of_mem c (List.mem_of_mem_drop hs))
          · exact Or.inr hq
      · simp only [hpre, Bool.false_eq_true, if_false] at ha
        rcases List.mem_cons.mp ha with rfl | hm
        · exact Or.inl (List.mem_cons_self _ _)
        · rcases ih rest (by simpa using hn) hm with hs | hq
          · exact Or.inl (List.mem_cons_of_mem c hs)
          · exact Or.inr hq

theorem mem_pyReplace (p q s : PyStr) (a : Char) (h : a ∈ pyReplace p q s) :
    a ∈ s ∨ a ∈ q :=
  mem_pyReplace_aux p q a s.length s le_rfl h

/-- Single-character replacement: a prefix of the output avoiding the inserted
character is already a prefix of the input. -/
theorem prefix_pyReplace_aux (p : PyStr) (d : Char) :
    ∀ (n : Nat) (s t : PyStr), s.length ≤ n → d ∉ t →
      t <+: pyReplace p [d] s → t <+: s := by
  intro n
  induction n with
  | zero =>
    intro s t hn _ ht
    have hs : s = [] := List.length_eq_zero.mp (Nat.le_zero.mp hn)
    subst hs
    simpa [pyReplace_nil] using ht
  | succ n ih =>
    intro s t hn hd ht
    cases s with
    | nil => simpa [pyReplace_nil] using ht
    | cons c rest =>
      rw [pyReplace_cons] at ht
      by_cases hpre : p.isPrefixOf (c :: rest) = true
      · simp only [hpre, if_true] at ht
        cases t with
        | nil => exact List.nil_prefix
        | cons a t2 =>
          have := (List.cons_prefix_cons.mp ht).1
          subst this
          exact absurd (List.mem_cons_self _ _) hd
      · simp only [hpre, Bool.false_eq_true, if_false] at ht
        cases t with
        | nil => exact List.nil_prefix
        | cons a t2 =>
          obtain ⟨rfl, ht2⟩ := List.cons_prefix_cons.mp ht
          have hd2 : d ∉ t2 := fun h => hd (List.mem_cons_of_mem _ h)
          exact List.cons_prefix_cons.mpr ⟨rfl, ih rest t2 (by simpa using hn) hd2 ht2⟩

/-- Single-character replacement: an infix of the output avoiding the inserted
character is already an infix of the input. -/
theorem infix_pyReplace_aux (p : PyStr) (d : Char) :
    ∀ (n : Nat) (s t : PyStr), s.length ≤ n → d ∉ t →
      t <:+: pyReplace p [d] s → t <:+: s := by
  intro n
  induction n with
  | zero =>
    intro s t hn _ ht
    have hs : s = [] := List.length_eq_zero.mp (Nat.le_zero.mp hn)
    subst hs
    simpa [pyReplace_nil] using ht
  | succ n ih =>
    intro s t hn hd ht
    cases s with
    | nil => simpa [pyReplace_nil] using ht
    | cons c rest =>
      rw [pyReplace_cons] at ht
      have hrest : rest.length ≤ n := by simpa using hn
      by_cases hpre : p.isPrefixOf (c :: rest) = true
      · simp only [hpre, if_true, List.singleton_append] at ht
        rcases List.infix_cons_iff.mp ht with hp | hi
        · cases t with
          | nil => exact List.nil_infix
          | cons a t2 =>
            have := (List.cons_prefix_cons.mp hp).1
            subst this
            exact absurd (List.mem_cons_self _ _) hd
        · have hlen : (rest.drop (p.length - 1)).length ≤ n := by
            simp only [List.length_drop]; omega
          have h1 : t <:+: rest.drop (p.length - 1) := ih _ t hlen hd hi
          have h2 : t <:+: rest := h1.trans (List.drop_suffix _ _).isInfix
          exact List.infix_cons h2
      · simp only [hpre, Bool.false_eq_true, if_false] at ht
        rcases List.infix_cons_iff.mp ht with hp | hi
        · cases t with
          | nil => exact List.nil_infix
          | cons a t2 =>
            obtain ⟨rfl, ht2⟩ := List.cons_prefix_cons.mp hp
            have hd2 : d ∉ t2 := fun h => hd (List.mem_cons_of_mem _ h)
            have := prefix_pyReplace_aux p d n rest t2 hrest hd2 ht2
            exact (List.cons_prefix_cons.mpr ⟨rfl, this⟩).isInfix
        · exact List.infix_cons (ih rest t hrest hd hi)

theorem infix_pyReplace (p : PyStr) (d : Char) (s t : PyStr) (hd : d ∉ t)
    (h : t <:+: pyReplace p [d] s) : t <:+: s :=
  infix_pyReplace_aux p d s.length s t le_rfl hd h

/-- After replacing every occurrence of `p` by a character not occurring in
`p`, no occurrence of `p` remains. -/
theorem not_infix_pyReplace_self_aux (p : PyStr) (d : Char) (hd : d ∉ p)
    (hne : p ≠ []) :
    ∀ (n : Nat) (s : PyStr), s.length ≤ n → ¬ p <:+: pyReplace p [d] s := by
  intro n
  induction n with
  | zero =>
    intro s hn hcon
    have hs : s = [] := List.length_eq_zero.mp (Nat.le_zero.mp hn)
    subst hs
    rw [pyReplace_nil] at hcon
    exact hne (List.infix_nil.mp hcon)
  | succ n ih =>
    intro s hn hcon
    cases s with
    | nil =>
      rw [pyReplace_nil] at hcon
      exact hne (List.infix_nil.mp hcon)
    | cons c rest =>
      rw [pyReplace_cons] at hcon
      have hrest : rest.length ≤ n := by simpa using hn
      by_cases hpre : p.isPrefixOf (c :: rest) = true
      · simp only [hpre, if_true, List.singleton_append] at hcon
        rcases List.infix_cons_iff.mp hcon with hp | hi
        · cases p with
          | nil => exact hne rfl
          | cons a p2 =>
            have := (List.cons_prefix_cons.mp hp).1
            subst this
            exact hd (List.mem_cons_self _ _)
        · have hlen : (rest.drop (p.length - 1)).length ≤ n := by
            simp only [List.length_drop]; omega
          exact ih _ hlen hi
      · simp only [hpre, Bool.false_eq_true, if_false] at hcon
        rcases List.infix_cons_iff.mp hcon with hp | hi
        · cases p with
          | nil => exact hne rfl
          | cons a p2 =>
            obtain ⟨rfl, ht2⟩ := List.cons_prefix_cons.mp hp
            have hd2 : d ∉ p2 := fun h => hd (List.mem_cons_of_mem _ h)
            have := prefix_pyReplace_aux (a :: p2) d n rest p2 hrest hd2 ht2
            exact hpre ( List.isPrefixOf_iff_prefix.mpr (List.cons_prefix_cons.mpr ⟨rfl, this⟩))
        · exact ih rest hrest hi

theorem not_infix_pyReplace_self (p : PyStr) (d : Char) (hd : d ∉ p)
    (hne : p ≠ []) (s : PyStr) : ¬ p <:+: pyReplace p [d] s :=
  not_infix_pyReplace_self_aux p d hd hne s.length s le_rfl

theorem singleton_infix_iff_mem (a : Char) (l : PyStr) : [a] <:+: l ↔ a ∈ l := by
  constructor
  · rintro ⟨s, t, rfl⟩
    simp
  · intro h
    obtain ⟨s, t, rfl⟩ := List.append_of_mem h
    exact ⟨s, t, by simp⟩

theorem not_mem_pyReplace_nl (p y : PyStr) (a : Char) (ha : a ∉ y)
    (ha2 : a ≠ '\n') : a ∉ pyReplace p "\n".data y := by
  intro h
  rcases mem_pyReplace p "\n".data y a h with h1 | h2
  · exact ha h1
  · exact ha2 (List.mem_singleton.mp h2)

theorem not_infix_pyReplace_nl (p y t : PyStr) (hnl : '\n' ∉ t)
    (h : ¬ t <:+: y) : ¬ t <:+: pyReplace p "\n".data y :=
  fun hc => h (infix_pyReplace p '\n' y t hnl hc)

theorem normalize_no_cr (s : PyStr) : '\r' ∉ normalize_content_text s := by
  show '\r' ∉ pyReplace "\\r".data "\n".data _
  apply not_mem_pyReplace_nl _ _ _ _ (by decide)
  apply not_mem_pyReplace_nl _ _ _ _ (by decide)
  apply not_mem_pyReplace_nl _ _ _ _ (by decide)
  apply not_mem_pyReplace_nl _ _ _ _ (by decide)
  apply not_mem_pyReplace_nl _ _ _ _ (by decide)
  apply not_mem_pyReplace_nl _ _ _ _ (by decide)
  intro hmem
  exact not_infix_pyReplace_self "\r".data '\n' (by decide) (by decide) _
    ((singleton_infix_iff_mem '\r' _).mpr hmem)

theorem normalize_no_bt_n (s : PyStr) :
    ¬ "`n".data <:+: normalize_content_text s := by
  show ¬ _ <:+: pyReplace "\\r".data "\n".data _
  apply not_infix_pyReplace_nl _ _ _ (by decide)
  apply not_infix_pyReplace_nl _ _ _ (by decide)
  apply not_infix_pyReplace_nl _ _ _ (by decide)
  apply not_infix_pyReplace_nl _ _ _ (by decide)
  exact not_infix_pyReplace_self "`n".data '\n' (by decide) (by decide) _

theorem normalize_no_bt_r (s : PyStr) :
    ¬ "`r".data <:+: normalize_content_text s := by
  show ¬ _ <:+: pyReplace "\\r".data "\n".data _
  apply not_infix_pyReplace_nl _ _ _ (by decide)
  apply not_infix_pyReplace_nl _ _ _ (by decide)
  apply not_infix_pyReplace_nl _ _ _ (by decide)
  exact not_infix_pyReplace_self "`r".data '\n' (by decide) (by decide) _

theorem normalize_no_bs_n (s : PyStr) :
    ¬ "\\n".data <:+: normalize_content_text s := by
  show ¬ _ <:+: pyReplace "\\r".data "\n".data _
  apply not_infix_pyReplace_nl _ _ _ (by decide)
  exact not_infix_pyReplace_self "\\n".data '\n' (by decide) (by decide) _

theorem normalize_no_bs_r (s : PyStr) :
    ¬ "\\r".data <:+: normalize_content_text s :=
  not_infix_pyReplace_self "\\r".data '\n' (by decide) (by decide) _

/-- C2: content normalization is idempotent — for every string `s`,
`normalize_content_text (normalize_content_text s) = normalize_content_text s`
— and every occurrence of a CRLF pair, a lone CR, and each of the escaped
textual variants (`\r\n`, `\n`, `\r` written with a literal backslash, and
the backtick forms) is rewritten to a single line-feed character: each
variant normalizes to `"\n"` and no occurrence of any variant survives in
the output. -/
theorem claim_C2_normalize_idempotent (s : PyStr) :
    normalize_content_text (normalize_content_text s) = normalize_content_text s ∧
    (normalize_content_text "\r\n".data = "\n".data ∧
     normalize_content_text "\r".data = "\n".data ∧
     normalize_content_text "\\r\\n".data = "\n".data ∧
     normalize_content_text "\\n".data = "\n".data ∧
     normalize_content_text "\\r".data = "\n".data ∧
     normalize_content_text "`r`n".data = "\n".data ∧
     normalize_content_text "`n".data = "\n".data ∧
     normalize_content_text "`r".data = "\n".data) ∧
    (¬ "\r\n".data <:+: normalize_content_text s ∧
     ¬ "\r".data <:+: normalize_content_text s ∧
     ¬ "\\r\\n".data <:+: normalize_content_text s ∧
     ¬ "\\n".data <:+: normalize_content_text s ∧
     ¬ "\\r".data <:+: normalize_content_text s ∧
     ¬ "`r`n".data <:+: normalize_content_text s ∧
     ¬ "`n".data <:+: normalize_content_text s ∧
     ¬ "`r".data <:+: normalize_content_text s) := by
  have hcrlf : ¬ "\r\n".data <:+: normalize_content_text s :=
    fun h => normalize_no_cr s (h.subset (by decide))
  have hcr : ¬ "\r".data <:+: normalize_content_text s :=
    fun h => normalize_no_cr s (h.subset (by decide))
  have hbsrn : ¬ "\\r\\n".data <:+: normalize_content_text s :=
    fun h => normalize_no_bs_n s ((by decide : "\\n".data <:+: "\\r\\n".data).trans h)
  have hbtrn : ¬ "`r`n".data <:+: normalize_content_text s :=
    fun h => normalize_no_bt_n s ((by decide : "`n".data <:+: "`r`n".data).trans h)
  refine ⟨?_,
    ⟨by decide, by decide, by decide, by decide, by decide, by decide, by decide,
     by decide⟩,
    hcrlf, hcr, hbsrn, normalize_no_bs_n s, normalize_no_bs_r s, hbtrn,
    normalize_no_bt_n s, normalize_no_bt_r s⟩
  show pyReplace "\\r".data "\n".data
      (pyReplace "\\n".data "\n".data
        (pyReplace "\\r\\n".data "\n".data
          (pyReplace "`r".data "\n".data
            (pyReplace "`n".data "\n".data
              (pyReplace "`r`n".data "\n".data
                (pyReplace "\r".data "\n".data
                  (pyReplace "\r\n".data "\n".data (normalize_content_text s)))))))) =
      normalize_content_text s
  rw [pyReplace_eq_self _ _ _ hcrlf, pyReplace_eq_self _ _ _ hcr,
      pyReplace_eq_self _ _ _ hbtrn, pyReplace_eq_self _ _ _ (normalize_no_bt_n s),
      pyReplace_eq_self _ _ _ (normalize_no_bt_r s), pyReplace_eq_self _ _ _ hbsrn,
      pyReplace_eq_self _ _ _ (normalize_no_bs_n s),
      pyReplace_eq_self _ _ _ (normalize_no_bs_r s)]

/-- C9: scheme validation is applied to the backslash-converted form:
`normalize_remote_path` accepts exactly those paths whose form after
replacing every backslash with `/` starts with `oss://`, returns that
fully converted form, and rejects everything else; in particular a target
written with backslashes such as `oss:\\bucket\path` is accepted and
returned fully slash-converted. -/
theorem claim_C9_normalize_remote_path (p : PyStr) :
    (("oss://".data <+: pyReplace "\\".data "/".data p) →
       normalize_remote_path p =
         Except.ok (pyReplace "\\".data "/".data p)) ∧
    (¬ ("oss://".data <+: pyReplace "\\".data "/".data p) →
       normalize_remote_path p =
         Except.error ("OSS 目标路径必须以 oss:// 开头，当前为: ".data ++ p)) ∧
    normalize_remote_path "oss:\\\\bucket\\path".data =
      Except.ok "oss://bucket/path".data := by
  refine ⟨?_, ?_, rfl⟩
  · intro h
    simp only [normalize_remote_path]
    rw [if_pos ( List.isPrefixOf_iff_prefix.mpr h)]
  · intro h
    simp only [normalize_remote_path]
    rw [if_neg (fun hc => h ( List.isPrefixOf_iff_prefix.mp hc))]

theorem claim_C9_witness :
    normalize_remote_path "oss://a\\b".data =
      Except.ok (pyReplace "\\".data "/".data "oss://a\\b".data) ∧
    normalize_remote_path "http://a".data =
      Except.error
        ("OSS 目标路径必须以 oss:// 开头，当前为: ".data ++ "http://a".data) :=
  ⟨(claim_C9_normalize_remote_path "oss://a\\b".data).1 (by decide),
   (claim_C9_normalize_remote_path "http://a".data).2.1 (by decide)⟩

/-- C4: the built upload command is exactly
`[uploader, action, source, target]` followed by `["-c", config]` only when
a config path is present, then `"-f"` only when force is requested, then
`"-u"` only when update is requested; the action (position 1) is `sync`
exactly when the local source is a directory and `cp` otherwise. -/
theorem claim_C4_build_command (env : Env) (source target ossutil config : PyStr)
    (force update : Bool) :
    build_command env source target ossutil config force update =
      [ossutil, if env.isDir source then "sync".data else "cp".data,
        source, target]
        ++ (if config ≠ [] then ["-c".data, config] else [])
        ++ (if force then ["-f".data] else [])
        ++ (if update then ["-u".data] else []) ∧
    ((build_command env source target ossutil config force update)[1]? =
        some "sync".data ↔ env.isDir source = true) ∧
    ((build_command env source target ossutil config force update)[1]? =
        some "cp".data ↔ env.isDir source = false) := by
  have he : build_command env source target ossutil config force update =
      [ossutil, if env.isDir source then "sync".data else "cp".data,
        source, target]
        ++ (if config ≠ [] then ["-c".data, config] else [])
        ++ (if force then ["-f".data] else [])
        ++ (if update then ["-u".data] else []) := by
    simp only [build_command]
    by_cases hc : config = [] <;> by_cases hf : force = true <;>
      by_cases hu : update = true <;>
      simp [hc, hf, hu, List.append_assoc]
  refine ⟨he, ?_, ?_⟩ <;> rw [he] <;>
    by_cases hd : env.isDir source = true <;>
    simp [hd, List.cons_append]

/-! ## Support lemmas for the derived upload target (C3) -/

/-- Replacing a single character is a character map. -/
theorem pyReplace_single (a b : Char) (s : PyStr) :
    pyReplace [a] [b] s = s.map (fun c => if c = a then b else c) := by
  induction s with
  | nil => rfl
  | cons c rest ih =>
    rw [pyReplace_cons]
    by_cases h : a = c
    · subst h
      have hp : ([a].isPrefixOf (a :: rest)) = true := by
        simp [List.isPrefixOf]
      simp [hp, ih]
    · have hp : ([a].isPrefixOf (c :: rest)) = false := by
        simp [List.isPrefixOf]
        exact h
      simp [hp, ih, Ne.symm h]

theorem pyReplace_backslash (s : PyStr) :
    pyReplace "\\".data "/".data s = mapSlash s :=
  pyReplace_single '\\' '/' s

theorem trailingSlashes_ge_one (t : PyStr) :
    1 ≤ trailingSlashes (t ++ "/".data) := by
  show 1 ≤ ((t ++ ['/']).reverse.takeWhile (fun c => c = '/')).length
  rw [List.reverse_append]
  simp [List.takeWhile_cons]

theorem trailingSlashes_eq_one (t : PyStr) (h : t.getLast? ≠ some '/') :
    trailingSlashes (t ++ "/".data) = 1 := by
  show ((t ++ ['/']).reverse.takeWhile (fun c => c = '/')).length = 1
  rw [List.reverse_append]
  have htw : t.reverse.takeWhile (fun c => c = '/') = [] := by
    cases hrev : t.reverse with
    | nil => rfl
    | cons c l =>
      have hc : t.getLast? = some c := by
        rw [← List.head?_reverse, hrev]; rfl
      have : ¬ c = '/' := fun hcc => h (hc.trans (by rw [hcc]))
      simp [List.takeWhile_cons, this]
  simp [List.takeWhile_cons, htw]

theorem head_dropWhile_false (p : Char → Bool) :
    ∀ (l : PyStr) (a : Char), (l.dropWhile p).head? = some a → p a = false := by
  intro l
  induction l with
  | nil => intro a h; simp [List.dropWhile] at h
  | cons c rest ih =>
    intro a h
    by_cases hc : p c = true
    · rw [List.dropWhile_cons_of_pos hc] at h
      exact ih a h
    · rw [List.dropWhile_cons_of_neg hc] at h
      simp at h
      subst h
      exact Bool.eq_false_iff.mpr hc

/-- The last character of a stripped string never lies in the stripped set. -/
theorem pyStripSet_getLast (cs : List Char) (s : PyStr) (a : Char)
    (h : (pyStripSet cs s).getLast? = some a) : cs.contains a = false := by
  unfold pyStripSet pyRStripSet at h
  rw [List.getLast?_reverse] at h
  exact head_dropWhile_false _ _ _ h

theorem mapSlash_append (s t : PyStr) :
    mapSlash (s ++ t) = mapSlash s ++ mapSlash t :=
  List.map_append _ s t

theorem mapSlash_slash : mapSlash "/".data = "/".data := by decide

theorem not_mem_of_contains_eq_false (x : Char) (l : List Char)
    (h : l.contains x = false) : x ∉ l := by
  intro hmem
  simp [List.contains_eq_any_beq] at h
  exact h hmem

/-- When the scheme check passes, `normalize_remote_path` of the derived
string is the slash-converted string. -/
theorem derived_ok (J : PyStr) (hpre : "oss://".data <+: mapSlash J) :
    normalize_remote_path (J ++ "/".data) =
      Except.ok (mapSlash J ++ "/".data) := by
  simp only [normalize_remote_path]
  rw [pyReplace_backslash, mapSlash_append, mapSlash_slash,
    if_pos ( List.isPrefixOf_iff_prefix.mpr
      (hpre.trans (List.prefix_append _ _)))]

theorem prefix_mapSlash_mono (s t : PyStr) (h : t <+: s)
    (ht : mapSlash t = t) : t <+: mapSlash s := by
  obtain ⟨u, rfl⟩ := h
  rw [show mapSlash (t ++ u) = mapSlash t ++ mapSlash u from mapSlash_append t u, ht]
  exact List.prefix_append _ _

theorem head_prefix_of_joinWith (sep x : PyStr) (xs : List PyStr) :
    x <+: joinWith sep (x :: xs) := by
  cases xs with
  | nil => exact List.prefix_refl x
  | cons y ys =>
    show x <+: (x ++ sep) ++ joinWith sep (y :: ys)
    rw [List.append_assoc]
    exact List.prefix_append _ _

theorem strip_last_exists (cs : List Char) (s : PyStr)
    (hne : pyStripSet cs s ≠ []) :
    ∃ x, (pyStripSet cs s).getLast? = some x ∧ x ∉ cs := by
  cases hx : (pyStripSet cs s).getLast? with
  | none => exact absurd (List.getLast?_eq_none_iff.mp hx) hne
  | some x =>
    exact ⟨x, rfl,
      not_mem_of_contains_eq_false x cs (pyStripSet_getLast cs s x hx)⟩

theorem buildTargetParts_spec (stage channel subdir : PyStr) :
    ∃ r, buildTargetParts stage channel subdir = Except.ok r ∧
      "oss://".data <+: r ∧ 1 ≤ trailingSlashes r ∧
      ((pyStripSet ['/'] channel).getLast? ≠ some '\\' →
       (pyStripSet ['/'] subdir).getLast? ≠ some '\\' →
       trailingSlashes r = 1) := by
  obtain ⟨hhPre, hhLast, hhMap⟩ :
      "oss://".data <+: pyRStripSet ['/'] (choose_oss_host stage) ∧
      (pyRStripSet ['/'] (choose_oss_host stage)).getLast? = some 'e' ∧
      mapSlash (pyRStripSet ['/'] (choose_oss_host stage)) =
        pyRStripSet ['/'] (choose_oss_host stage) := by
    unfold choose_oss_host
    by_cases h2 : stage = "2".data
    · rw [if_pos h2]; exact ⟨by decide, by decide, by decide⟩
    · rw [if_neg h2]; exact ⟨by decide, by decide, by decide⟩
  simp only [buildTargetParts]
  set hRe := pyRStripSet ['/'] (choose_oss_host stage) with hhRe
  set cn := pyStripSet ['/'] channel with hcn
  set rn := pyStripSet ['/'] subdir with hrn
  by_cases hc : cn = [] <;> by_cases hr : rn = []
  · -- channel and subdir both strip to empty: target is host + "/"
    simp only [hc, hr, ne_eq, not_true_eq_false, if_false, List.append_nil]
    have hpre : "oss://".data <+: mapSlash (joinWith "/".data [hRe]) := by
      show "oss://".data <+: mapSlash hRe
      rw [hhMap]; exact hhPre
    refine ⟨_, derived_ok _ hpre, hpre.trans (List.prefix_append _ _),
      trailingSlashes_ge_one _, ?_⟩
    intro _ _
    refine trailingSlashes_eq_one _ ?_
    show (mapSlash hRe).getLast? ≠ some '/'
    rw [hhMap, hhLast]
    simp
  · -- only the subdir segment is present
    simp only [hc, hr, ne_eq, not_true_eq_false, if_false, not_false_eq_true,
      if_true, List.append_nil, List.nil_append, List.singleton_append]
    obtain ⟨x, hxLast, hxMem⟩ := strip_last_exists ['/'] subdir hr
    have hxLast2 : rn.getLast? = some x := hxLast
    have hpre : "oss://".data <+:
        mapSlash (joinWith "/".data [hRe, rn]) :=
      prefix_mapSlash_mono _ _
        (hhPre.trans (head_prefix_of_joinWith _ _ _)) (by decide)
    refine ⟨_, derived_ok _ hpre, hpre.trans (List.prefix_append _ _),
      trailingSlashes_ge_one _, ?_⟩
    intro _ hlast2
    refine trailingSlashes_eq_one _ ?_
    have hJlast : (joinWith "/".data [hRe, rn]).getLast? = some x := by
      show ((hRe ++ "/".data) ++ rn).getLast? = some x
      rw [List.getLast?_append_of_ne_nil _ hr]
      exact hxLast2
    simp only [mapSlash, List.getLast?_map, hJlast, Option.map_some']
    have hx1 : ¬ x = '/' := fun hh => hxMem (by rw [hh]; exact List.mem_singleton.mpr rfl)
    have hx2 : ¬ x = '\\' := fun hh => hlast2 (by rw [← hh]; exact hxLast2)
    simp [hx1, hx2]
  · -- only the channel segment is present
    simp only [hc, hr, ne_eq, not_true_eq_false, if_false, not_false_eq_true,
      if_true, List.append_nil, List.nil_append, List.singleton_append]
    obtain ⟨x, hxLast, hxMem⟩ := strip_last_exists ['/'] channel hc
    have hxLast2 : cn.getLast? = some x := hxLast
    have hpre : "oss://".data <+:
        mapSlash (joinWith "/".data [hRe, cn]) :=
      prefix_mapSlash_mono _ _
        (hhPre.trans (head_prefix_of_joinWith _ _ _)) (by decide)
    refine ⟨_, derived_ok _ hpre, hpre.trans (List.prefix_append _ _),
      trailingSlashes_ge_one _, ?_⟩
    intro hlast1 _
    refine trailingSlashes_eq_one _ ?_
    have hJlast : (joinWith "/".data [hRe, cn]).getLast? = some x := by
      show ((hRe ++ "/".data) ++ cn).getLast? = some x
      rw [List.getLast?_append_of_ne_nil _ hc]
      exact hxLast2
    simp only [mapSlash, List.getLast?_map, hJlast, Option.map_some']
    have hx1 : ¬ x = '/' := fun hh => hxMem (by rw [hh]; exact List.mem_singleton.mpr rfl)
    have hx2 : ¬ x = '\\' := fun hh => hlast1 (by rw [← hh]; exact hxLast2)
    simp [hx1, hx2]
  · -- both channel and subdir segments are present
    simp only [hc, hr, ne_eq, not_true_eq_false, if_false, not_false_eq_true,
      if_true, List.append_nil, List.nil_append, List.singleton_append,
      List.cons_append]
    obtain ⟨x, hxLast, hxMem⟩ := strip_last_exists ['/'] subdir hr
    have hxLast2 : rn.getLast? = some x := hxLast
    have hpre : "oss://".data <+:
        mapSlash (joinWith "/".data [hRe, cn, rn]) :=
      prefix_mapSlash_mono _ _
        (hhPre.trans (head_prefix_of_joinWith _ _ _)) (by decide)
    refine ⟨_, derived_ok _ hpre, hpre.trans (List.prefix_append _ _),
      trailingSlashes_ge_one _, ?_⟩
    intro _ hlast2
    refine trailingSlashes_eq_one _ ?_
    have hJlast : (joinWith "/".data [hRe, cn, rn]).getLast? = some x := by
      show ((hRe ++ "/".data) ++ ((cn ++ "/".data) ++ rn)).getLast? = some x
      rw [List.getLast?_append_of_ne_nil _ (by simp [hr]),
        List.getLast?_append_of_ne_nil _ hr]
      exact hxLast2
    simp only [mapSlash, List.getLast?_map, hJlast, Option.map_some']
    have hx1 : ¬ x = '/' := fun hh => hxMem (by rw [hh]; exact List.mem_singleton.mpr rfl)
    have hx2 : ¬ x = '\\' := fun hh => hlast2 (by rw [← hh]; exact hxLast2)
    simp [hx1, hx2]

/-- C3 counterexample: for stage `"1"`, empty channel and remote
subdirectory `"a\"` (trailing backslash), the derived target ends in two
slashes, not exactly one: the trailing backslash survives `strip("/")` and
is then converted to `/` by `normalize_remote_path`. -/
theorem claim_C3_counterexample :
    buildTargetParts "1".data [] "a\\".data =
      Except.ok "oss://meowgames-resource-test/cattie/a//".data ∧
    trailingSlashes "oss://meowgames-resource-test/cattie/a//".data = 2 ∧
    ¬ trailingSlashes "oss://meowgames-resource-test/cattie/a//".data = 1 :=
  ⟨rfl, by decide, by decide⟩

/-- C3 (amended): every derived upload target (no explicit target supplied)
is accepted, starts with `oss://` and ends with at least one `/`; it ends
with exactly one trailing `/` provided neither the stripped channel segment
nor the stripped remote-subdirectory segment ends with a backslash (a
trailing backslash is slash-converted and yields a double slash); and every
explicitly supplied non-empty target whose backslash-converted form does
not start with `oss://` is rejected with a validation error. -/
theorem claim_C3_build_target (stage channel subdir t : PyStr) :
    (∃ r, buildTargetParts stage channel subdir = Except.ok r ∧
       "oss://".data <+: r ∧ 1 ≤ trailingSlashes r) ∧
    ((pyStripSet ['/'] channel).getLast? ≠ some '\\' →
     (pyStripSet ['/'] subdir).getLast? ≠ some '\\' →
     ∃ r, buildTargetParts stage channel subdir = Except.ok r ∧
       "oss://".data <+: r ∧ trailingSlashes r = 1) ∧
    (build_target [] stage channel subdir =
      buildTargetParts stage channel subdir) ∧
    (t ≠ [] → ¬ ("oss://".data <+: pyReplace "\\".data "/".data t) →
      build_target t stage channel subdir =
        Except.error ("OSS 目标路径必须以 oss:// 开头，当前为: ".data ++ t)) := by
  obtain ⟨r, hok, hpre, hge, hone⟩ := buildTargetParts_spec stage channel subdir
  refine ⟨⟨r, hok, hpre, hge⟩, fun h1 h2 => ⟨r, hok, hpre, hone h1 h2⟩, ?_, ?_⟩
  · simp [build_target]
  · intro ht hnp
    simp only [build_target]
    rw [if_pos ht]
    simp only [normalize_remote_path]
    rw [if_neg (fun hcc => hnp ( List.isPrefixOf_iff_prefix.mp hcc))]

theorem claim_C3_witness :
    (∃ r, buildTargetParts "2".data "ios".data "notice/".data = Except.ok r ∧
       "oss://".data <+: r ∧ trailingSlashes r = 1) ∧
    build_target "http://x".data "1".data [] "notice/".data =
      Except.error
        ("OSS 目标路径必须以 oss:// 开头，当前为: ".data ++ "http://x".data) :=
  ⟨(claim_C3_build_target "2".data "ios".data "notice/".data "http://x".data).2.1
      (by decide) (by decide),
   (claim_C3_build_target "1".data [] "notice/".data "http://x".data).2.2.2
      (by decide) (by decide)⟩

/-- C6: environment validation succeeds exactly on the two literal strings
`test` and `prod`, returning its input unchanged for those and a
descriptive error (naming the offending value) for every other string. -/
theorem claim_C6_validate_environment (v : PyStr) :
    validate_environment "test".data = Except.ok "test".data ∧
    validate_environment "prod".data = Except.ok "prod".data ∧
    (validate_environment v = Except.ok v ↔
      (v = "test".data ∨ v = "prod".data)) ∧
    (¬ v = "test".data → ¬ v = "prod".data →
      validate_environment v = Except.error ("环境参数无效: ".data ++ v)) := by
  refine ⟨rfl, rfl, ?_, ?_⟩
  · constructor
    · intro h
      by_cases hm : v ∈ ["test".data, "prod".data]
      · simpa using hm
      · simp only [validate_environment, if_neg hm] at h
        exact absurd h (by simp)
    · intro h
      have hm : v ∈ ["test".data, "prod".data] := by simpa using h
      simp [validate_environment, hm]
  · intro h1 h2
    have hm : v ∉ ["test".data, "prod".data] := by simp [h1, h2]
    simp [validate_environment, hm]

theorem claim_C6_witness :
    validate_environment "dev".data =
      Except.error ("环境参数无效: ".data ++ "dev".data) :=
  (claim_C6_validate_environment "dev".data).2.2.2 (by decide) (by decide)

theorem parseHexDigit_hexChar : ∀ n : Nat, n < 16 → parseHexDigit (hexChar n) = some n := by
  decide

/-- Reading a `\\uNNNN` escape. -/
theorem parseJString_u (hi lo : Nat) (hhi : hi < 16) (hlo : lo < 16)
    (X : PyStr) :
    parseJString ('\\' :: 'u' :: '0' :: '0' :: hexChar hi :: hexChar lo :: X) =
      (parseJString X).map
        (fun p => (Char.ofNat (hi * 16 + lo) :: p.1, p.2)) := by
  have h0 : parseHexDigit '0' = some 0 := rfl
  rw [parseJString.eq_def]
  simp [h0, parseHexDigit_hexChar hi hhi, parseHexDigit_hexChar lo hlo]

/-- Escaping then reading a JSON string body returns the original string
and leaves the rest of the input untouched. -/
theorem parseJString_escape : ∀ (v r : PyStr),
    parseJString (escapeStr v ++ ('"' :: r)) = some (v, r) := by
  intro v
  induction v with
  | nil =>
    intro r
    show parseJString ('"' :: r) = some ([], r)
    rw [parseJString.eq_def]
    rfl
  | cons c cs ih =>
    intro r
    show parseJString ((escapeChar c ++ escapeStr cs) ++ ('"' :: r)) =
      some (c :: cs, r)
    rw [List.append_assoc]
    by_cases h1 : c = '"'
    · subst h1
      have hesc : escapeChar '"' = ['\\', '"'] := by decide
      rw [hesc]
      rw [parseJString.eq_def]
      simp [unescapeChar, ih]
    · by_cases h2 : c = '\\'
      · subst h2
        have hesc : escapeChar '\\' = ['\\', '\\'] := by decide
        rw [hesc]
        rw [parseJString.eq_def]
        simp [unescapeChar, ih]
      · by_cases h3 : c = '\n'
        · subst h3
          have hesc : escapeChar '\n' = ['\\', 'n'] := by decide
          rw [hesc]
          rw [parseJString.eq_def]
          simp [unescapeChar, ih]
        · by_cases h4 : c = '\r'
          · subst h4
            have hesc : escapeChar '\r' = ['\\', 'r'] := by decide
            rw [hesc]
            rw [parseJString.eq_def]
            simp [unescapeChar, ih]
          · by_cases h5 : c = '\t'
            · subst h5
              have hesc : escapeChar '\t' = ['\\', 't'] := by decide
              rw [hesc]
              rw [parseJString.eq_def]
              simp [unescapeChar, ih]
            · by_cases h6 : c = '\x08'
              · subst h6
                have hesc : escapeChar '\x08' = ['\\', 'b'] := by decide
                rw [hesc]
                rw [parseJString.eq_def]
                simp [unescapeChar, ih]
              · by_cases h7 : c = '\x0c'
                · subst h7
                  have hesc : escapeChar '\x0c' = ['\\', 'f'] := by decide
                  rw [hesc]
                  rw [parseJString.eq_def]
                  simp [unescapeChar, ih]
                · by_cases h8 : c.toNat < 0x20
                  · have hesc : escapeChar c =
                        ['\\', 'u', '0', '0', hexChar (c.toNat / 16),
                         hexChar (c.toNat % 16)] := by
                      simp only [escapeChar, if_neg h1, if_neg h2, if_neg h3,
                        if_neg h4, if_neg h5, if_neg h6, if_neg h7, if_pos h8]
                    rw [hesc]
                    simp only [List.cons_append, List.nil_append]
                    rw [parseJString_u (c.toNat / 16) (c.toNat % 16)
                      (by omega) (by omega), ih]
                    have harith : c.toNat / 16 * 16 + c.toNat % 16 = c.toNat := by
                      omega
                    simp [harith, Char.ofNat_toNat]
                  · have hesc : escapeChar c = [c] := by
                      simp only [escapeChar, if_neg h1, if_neg h2, if_neg h3,
                        if_neg h4, if_neg h5, if_neg h6, if_neg h7, if_neg h8]
                    rw [hesc]
                    rw [parseJString.eq_def]
                    simp [h1, h2, ih]

/-- Reading back the serialized entry lines recovers the dictionary. -/
theorem parse_entryLines :
    ∀ (d : List (PyStr × PyStr)) (n : Nat), d ≠ [] →
      (entryLines d ++ "\n\x7d".data).length ≤ n →
      parseEntriesAux n (entryLines d ++ "\n\x7d".data) = some d := by
  intro d
  induction d with
  | nil => intro n hd _; exact absurd rfl hd
  | cons kv d2 ih =>
    intro n _ hn
    cases d2 with
    | nil =>
      have hshape : entryLines [kv] ++ "\n\x7d".data =
          ' ' :: ' ' :: '"' ::
            (escapeStr kv.1 ++
              ('"' :: ':' :: ' ' :: '"' ::
                (escapeStr kv.2 ++ ('"' :: '\n' :: '\x7d' :: [])))) := by
        show pyJsonEntry kv ++ "\n\x7d".data = _
        simp [pyJsonEntry, List.append_assoc]
      rw [hshape] at hn ⊢
      cases n with
      | zero => simp at hn
      | succ n2 =>
        simp [parseEntriesAux, parseJString_escape]
    | cons kv2 d3 =>
      have hshape : entryLines (kv :: kv2 :: d3) ++ "\n\x7d".data =
          ' ' :: ' ' :: '"' ::
            (escapeStr kv.1 ++
              ('"' :: ':' :: ' ' :: '"' ::
                (escapeStr kv.2 ++
                  ('"' :: ',' :: '\n' ::
                    (entryLines (kv2 :: d3) ++ "\n\x7d".data))))) := by
        show (pyJsonEntry kv ++ ",\n".data ++ entryLines (kv2 :: d3)) ++
            "\n\x7d".data = _
        simp [pyJsonEntry, List.append_assoc]
      rw [hshape] at hn ⊢
      cases n with
      | zero => simp at hn
      | succ n2 =>
        have hb : (entryLines (kv2 :: d3) ++ "\n\x7d".data).length ≤ n2 := by
          simp only [List.length_append, List.length_cons] at hn ⊢
          omega
        have hrec := ih n2 (by simp) hb
        simp [parseEntriesAux, parseJString_escape, hrec]

theorem pyJsonDumps_roundTrip (d : List (PyStr × PyStr)) :
    parseJsonObj (pyJsonDumps d) = some d := by
  cases d with
  | nil => rfl
  | cons kv rest =>
    have hshape : pyJsonDumps (kv :: rest) =
        '\x7b' :: '\n' :: (entryLines (kv :: rest) ++ "\n\x7d".data) := by
      show "\x7b\n".data ++ entryLines (kv :: rest) ++ "\n\x7d".data = _
      simp [List.append_assoc]
    rw [hshape]
    show parseEntries (entryLines (kv :: rest) ++ "\n\x7d".data) =
      some (kv :: rest)
    exact parse_entryLines (kv :: rest) _ (by simp) le_rfl

/-- C7: the persisted artifact is a JSON object whose keys are exactly
`channel, environment, title, author, theme, content` in that stable order,
serialized with 2-space indentation (explicit serialized form below) and
non-ASCII characters preserved unescaped (`escapeChar` is the identity on
every printable character other than `"` and `\`), and the serialized
mapping round-trips through parse-then-serialize without loss. -/
theorem claim_C7_artifact (n : Notice) :
    ((Notice.to_dict n).map Prod.fst =
      ["channel".data, "environment".data, "title".data, "author".data,
       "theme".data, "content".data]) ∧
    parseJsonObj (write_json_text (Notice.to_dict n)) =
      some (Notice.to_dict n) ∧
    write_json_text
        ((parseJsonObj (write_json_text (Notice.to_dict n))).getD []) =
      write_json_text (Notice.to_dict n) ∧
    write_json_text (Notice.to_dict n) =
      "\x7b\n  \"channel\": \"".data ++ (escapeStr n.channel ++
      ("\",\n  \"environment\": \"".data ++ (escapeStr n.environment ++
      ("\",\n  \"title\": \"".data ++ (escapeStr n.title ++
      ("\",\n  \"author\": \"".data ++ (escapeStr n.author ++
      ("\",\n  \"theme\": \"".data ++ (escapeStr n.theme ++
      ("\",\n  \"content\": \"".data ++ (escapeStr n.content ++
      "\"\n\x7d".data))))))))))) ∧
    (∀ c : Char, 0x20 ≤ c.toNat → ¬ c = '"' → ¬ c = '\\' →
      escapeChar c = [c]) := by
  refine ⟨rfl, pyJsonDumps_roundTrip _, ?_, ?_, ?_⟩
  · show pyJsonDumps ((parseJsonObj (pyJsonDumps (Notice.to_dict n))).getD []) =
        pyJsonDumps (Notice.to_dict n)
    rw [pyJsonDumps_roundTrip]
    rfl
  · show pyJsonDumps (Notice.to_dict n) = _
    simp [pyJsonDumps, Notice.to_dict, entryLines, pyJsonEntry, escapeStr,
      escapeChar, List.append_assoc]
  · intro c hge hq hb
    have h3 : ¬ c = '\n' := fun hh => by subst hh; exact absurd hge (by decide)
    have h4 : ¬ c = '\r' := fun hh => by subst hh; exact absurd hge (by decide)
    have h5 : ¬ c = '\t' := fun hh => by subst hh; exact absurd hge (by decide)
    have h6 : ¬ c = '\x08' := fun hh => by subst hh; exact absurd hge (by decide)
    have h7 : ¬ c = '\x0c' := fun hh => by subst hh; exact absurd hge (by decide)
    have h8 : ¬ c.toNat < 0x20 := by omega
    simp only [escapeChar, if_neg hq, if_neg hb, if_neg h3, if_neg h4,
      if_neg h5, if_neg h6, if_neg h7, if_neg h8]

theorem claim_C7_witness :
    parseJsonObj (write_json_text (Notice.to_dict
      ⟨"ios".data, "prod".data, "v2 patch".data, "ops".data, [],
       "line1\nline2".data⟩)) =
      some (Notice.to_dict
        ⟨"ios".data, "prod".data, "v2 patch".data, "ops".data, [],
         "line1\nline2".data⟩) ∧
    escapeChar 'é' = ['é'] :=
  ⟨(claim_C7_artifact ⟨"ios".data, "prod".data, "v2 patch".data, "ops".data,
      [], "line1\nline2".data⟩).2.1,
   (claim_C7_artifact ⟨"ios".data, "prod".data, "v2 patch".data, "ops".data,
      [], "line1\nline2".data⟩).2.2.2.2 'é' (by decide) (by decide)
      (by decide)⟩

/-- C5 counterexample: the argument vector supplying two of the four
content sources — `--content-base64 ""` (empty value) and
`--content-stdin` — is **not** rejected: the truthiness-based count sees
only one source, parsing succeeds, and stdin is read. -/
theorem claim_C5_counterexample :
    suppliedSourceCount rawArgsTwoSources = 2 ∧
    parse_args envC rawArgsTwoSources =
      Except.ok (⟨"ios".data, "prod".data, "t".data, "a".data, [],
        "hello".data, ".".data, "notice_update.json".data⟩,
        [Event.stdinRead]) :=
  ⟨rfl, rfl⟩

/-- C5 (amended): for every argument vector in which zero of the four
content sources carry a truthy (non-empty) value, or in which more than
one carries a truthy value, argument parsing fails with a configuration
error and performs no file read, stdin read, or network I/O (the error is
raised before `resolve_content` runs, so no effect event is produced). -/
theorem claim_C5_parse_args (io : Env) (a : RawArgs) :
    (truthySourceCount a = 0 →
      parse_args io a = Except.error
        "缺少公告内容，请使用 --content / --content-base64 / --content-file / --content-stdin 之一".data) ∧
    (truthySourceCount a > 1 →
      parse_args io a = Except.error
        "--content / --content-base64 / --content-file / --content-stdin 只能传一个".data) := by
  constructor
  · intro h
    simp [parse_args, h]
  · intro h
    have h0 : ¬ truthySourceCount a = 0 := by omega
    simp [parse_args, h0, h]

theorem claim_C5_witness :
    parse_args envC rawArgsNoSource = Except.error
      "缺少公告内容，请使用 --content / --content-base64 / --content-file / --content-stdin 之一".data ∧
    parse_args envC rawArgsTwoTruthy = Except.error
      "--content / --content-base64 / --content-file / --content-stdin 只能传一个".data :=
  ⟨(claim_C5_parse_args envC rawArgsNoSource).1 (by decide),
   (claim_C5_parse_args envC rawArgsTwoTruthy).2 (by decide)⟩

/-- C1 counterexample: in an environment whose spawned uploader exits with
code 2, the pipeline fails with the upload error, but the process exit
status is 1 (the `RuntimeError` raised by `upload_to_oss` escapes `main`
uncaught), not 2: the subprocess's exit code is not the pipeline's own
exit code. -/
theorem claim_C1_counterexample :
    envC.run [] = SpawnOutcome.ret 2 ∧
    mainPipeline envC rawArgsOk =
      Except.error ("上传失败，退出码: ".data ++ intStr 2) ∧
    processExit (mainPipeline envC rawArgsOk) = 1 ∧
    (1 : Int) ≠ 2 :=
  ⟨rfl, rfl, rfl, by decide⟩

/-- C1 (amended): when the spawned uploader subprocess exits with a
non-zero code N, `upload_oss` returns N unchanged (this is the propagation
the spec describes, and the standalone uploader CLI exits with N), and the
notice pipeline fails — but by raising `RuntimeError`, so the pipeline's
own process exit status is 1, not N. -/
theorem claim_C1_exit_propagation (io : Env) (aEnv aChannel file : PyStr)
    (code : Int)
    (hrun : ∀ cmd, io.run cmd = SpawnOutcome.ret code)
    (hexists : ∀ p, io.pathExists p = true)
    (hcode : code ≠ 0)
    (hchan : pyStripWs aChannel ≠ []) :
    (∃ evs, upload_oss io (io.resolvePath file) []
        (if aEnv = "prod".data then "2".data else "1".data)
        (pyStripWs aChannel) "notice/".data [] [] true true false =
        Except.ok (code, evs)) ∧
    upload_to_oss io aEnv aChannel file =
      Except.error ("上传失败，退出码: ".data ++ intStr code) ∧
    processExit (Except.error ("上传失败，退出码: ".data ++ intStr code)) = 1 := by
  have hmain : ∃ evs, upload_oss io (io.resolvePath file) []
      (if aEnv = "prod".data then "2".data else "1".data)
      (pyStripWs aChannel) "notice/".data [] [] true true false =
      Except.ok (code, evs) := by
    obtain ⟨rt, hok, -, -, -⟩ := buildTargetParts_spec
      (if aEnv = "prod".data then "2".data else "1".data)
      (pyStripWs aChannel) "notice/".data
    simp only [upload_oss]
    simp [hexists, hok, hrun, hcode]
  refine ⟨hmain, ?_, rfl⟩
  obtain ⟨evs, heq⟩ := hmain
  unfold upload_to_oss
  split
  · rename_i e heqp
    simp [get_oss_upload_params, hchan] at heqp
  · rename_i stage channel heqp
    simp only [get_oss_upload_params] at heqp
    rw [if_neg hchan] at heqp
    have hs : stage = (if aEnv = "prod".data then "2".data else "1".data) ∧
        channel = pyStripWs aChannel := by
      have := heqp
      simp only [Except.ok.injEq, Prod.mk.injEq] at this
      exact ⟨this.1.symm, this.2.symm⟩
    obtain ⟨hs1, hs2⟩ := hs
    subst hs1
    subst hs2
    rw [heq]
    simp [hcode]

theorem claim_C1_witness :
    upload_to_oss envC "prod".data "ios".data "f".data =
      Except.error ("上传失败，退出码: ".data ++ intStr 2) :=
  (claim_C1_exit_propagation envC "prod".data "ios".data "f".data 2
    (fun _ => rfl) (fun _ => rfl) (by decide) (by decide)).2.1

theorem build_command_no_config (io : Env) (source target ossutil : PyStr)
    (force update : Bool) :
    build_command io source target ossutil [] force update =
      [ossutil, if io.isDir source then "sync".data else "cp".data,
        source, target]
        ++ (if force then ["-f".data] else [])
        ++ (if update then ["-u".data] else []) := by
  simp only [build_command]
  by_cases hf : force = true <;> by_cases hu : update = true <;>
    simp [hf, hu, List.append_assoc]

/-- C8: when the resolved uploader config path names a file that does not
exist, the executor emits a warning, clears the config path, builds the
command without the `-c <config>` arguments, and still spawns the upload
subprocess. -/
theorem claim_C8_missing_config (io : Env)
    (source stage channel remote_subdir ossutil config : PyStr)
    (update force : Bool)
    (hsrc : io.pathExists (io.resolvePath source) = true)
    (hne : (if config ≠ [] then config else default_config_path io) ≠ [])
    (hmiss : io.pathExists
      (if config ≠ [] then config else default_config_path io) = false) :
    ∃ rt cd evs,
      buildTargetParts stage channel remote_subdir = Except.ok rt ∧
      upload_oss io source [] stage channel remote_subdir ossutil config
        update force false = Except.ok (cd, evs) ∧
      Event.warn ("[WARN] 未找到 ossutil 配置文件: ".data ++
        (if config ≠ [] then config else default_config_path io)) ∈ evs ∧
      Event.procSpawn (build_command io (io.resolvePath source) rt
        (if ossutil ≠ [] then ossutil else default_ossutil_path io) []
        force update) ∈ evs ∧
      build_command io (io.resolvePath source) rt
          (if ossutil ≠ [] then ossutil else default_ossutil_path io) []
          force update =
        [(if ossutil ≠ [] then ossutil else default_ossutil_path io),
         (if io.isDir (io.resolvePath source) then "sync".data
          else "cp".data),
         io.resolvePath source, rt]
          ++ (if force then ["-f".data] else [])
          ++ (if update then ["-u".data] else []) := by
  obtain ⟨rt, hok, -, -, -⟩ := buildTargetParts_spec stage channel remote_subdir
  refine ⟨rt, ?_⟩
  have hbc := build_command_no_config io (io.resolvePath source) rt
    (if ossutil ≠ [] then ossutil else default_ossutil_path io) force update
  simp at hbc
  simp at hne hmiss
  simp only [upload_oss]
  simp [hsrc, hok, hne, hmiss]
  cases hr : io.run (build_command io (io.resolvePath source) rt
      (if ossutil = [] then default_ossutil_path io else ossutil) []
      force update) with
  | ret c =>
    by_cases hc : c = 0
    · subst hc
      simp only [hr, if_pos rfl]
      refine ⟨0, _, rfl, ?_, ?_, hbc⟩
      · simp
      · simp
    · simp only [hr, if_neg hc]
      refine ⟨c, _, rfl, ?_, ?_, hbc⟩
      · simp
      · simp
  | notFound =>
    simp only [hr]
    refine ⟨1, _, rfl, ?_, ?_, hbc⟩
    · simp
    · simp
  | osError m =>
    simp only [hr]
    refine ⟨1, _, rfl, ?_, ?_, hbc⟩
    · simp
    · simp

theorem claim_C8_witness :
    ∃ rt cd evs,
      buildTargetParts "1".data "ios".data "notice/".data = Except.ok rt ∧
      upload_oss envC8 "/src.json".data [] "1".data "ios".data
        "notice/".data [] "/cfg".data true true false =
        Except.ok (cd, evs) ∧
      Event.warn ("[WARN] 未找到 ossutil 配置文件: ".data ++
        (if "/cfg".data ≠ [] then "/cfg".data
         else default_config_path envC8)) ∈ evs ∧
      Event.procSpawn (build_command envC8
        (envC8.resolvePath "/src.json".data) rt
        (if ([] : PyStr) ≠ [] then [] else default_ossutil_path envC8) []
        true true) ∈ evs ∧
      build_command envC8 (envC8.resolvePath "/src.json".data) rt
          (if ([] : PyStr) ≠ [] then [] else default_ossutil_path envC8) []
          true true =
        [(if ([] : PyStr) ≠ [] then [] else default_ossutil_path envC8),
         (if envC8.isDir (envC8.resolvePath "/src.json".data)
          then "sync".data else "cp".data),
         envC8.resolvePath "/src.json".data, rt]
          ++ (if true then ["-f".data] else [])
          ++ (if true then ["-u".data] else []) :=
  claim_C8_missing_config envC8 "/src.json".data "1".data "ios".data
    "notice/".data [] "/cfg".data true true (by decide) (by decide)
    (by decide)

theorem validate_required_unchanged (name v w : PyStr)
    (h : validate_required name v = Except.ok w) : w = v := by
  simp only [validate_required] at h
  by_cases hs : pyStripWs v = []
  · rw [if_pos hs] at h
    exact absurd h (by simp)
  · rw [if_neg hs] at h
    simp at h
    exact h.symm

theorem validate_environment_unchanged (v w : PyStr)
    (h : validate_environment v = Except.ok w) : w = v := by
  simp only [validate_environment] at h
  by_cases hm : v ∈ ["test".data, "prod".data]
  · rw [if_pos hm] at h
    simp at h
    exact h.symm
  · rw [if_neg hm] at h
    exact absurd h (by simp)

/-- C10: required-field validation never alters the value it accepts —
`validate_required` returns its argument unchanged whenever the trimmed
value is non-empty — so an accepted run of the pipeline writes the channel,
title, author and content fields exactly as they appear in the parsed
arguments, leading/trailing whitespace included (no trimming is applied to
the persisted values). -/
theorem claim_C10_no_trimming :
    (∀ name v, pyStripWs v ≠ [] → validate_required name v = Except.ok v) ∧
    (∀ name v w, validate_required name v = Except.ok w → w = v) ∧
    (∀ (io : Env) (a : RawArgs) (args : ParsedArgs) (evs0 : List Event)
        (code : Int) (evs : List Event),
      parse_args io a = Except.ok (args, evs0) →
      mainPipeline io a = Except.ok (code, evs) →
      Event.fileWrite
        (resolve_output_dir io args.output_dir ++ "/".data ++ args.file_name)
        (write_json_text (Notice.to_dict (build_notice args.channel args.env
          args.title args.author args.theme args.content))) ∈ evs) := by
  refine ⟨?_, validate_required_unchanged, ?_⟩
  · intro name v h
    simp [validate_required, h]
  · intro io a args evs0 code evs hparse hmain
    simp only [mainPipeline, hparse] at hmain
    split at hmain
    · simp at hmain
    · rename_i w1 heq1
      split at hmain
      · simp at hmain
      · rename_i w2 heq2
        split at hmain
        · simp at hmain
        · rename_i w3 heq3
          split at hmain
          · simp at hmain
          · rename_i w4 heq4
            split at hmain
            · simp at hmain
            · rename_i w5 heq5
              split at hmain
              · simp at hmain
              · rename_i w6 heq6
                split at hmain
                · simp at hmain
                · rename_i evs2 hup
                  split at hmain
                  · simp at hmain
                  · rename_i evs3 hnote
                    obtain rfl : w1 = args.channel :=
                      validate_required_unchanged _ _ _ heq1
                    obtain rfl : w2 = args.env :=
                      validate_required_unchanged _ _ _ heq2
                    obtain rfl : w3 = args.env :=
                      validate_environment_unchanged _ _ heq3
                    obtain rfl : w4 = args.title :=
                      validate_required_unchanged _ _ _ heq4
                    obtain rfl : w5 = args.author :=
                      validate_required_unchanged _ _ _ heq5
                    obtain rfl : w6 = args.content :=
                      validate_required_unchanged _ _ _ heq6
                    simp only [Except.ok.injEq, Prod.mk.injEq] at hmain
                    obtain ⟨-, rfl⟩ := hmain
                    simp

theorem claim_C10_witness :
    ∃ code evs, mainPipeline envOK rawArgsWs = Except.ok (code, evs) ∧
      Event.fileWrite
        (resolve_output_dir envOK ".".data ++ "/".data ++
          "notice_update.json".data)
        (write_json_text (Notice.to_dict (build_notice " ios ".data
          "prod".data "t".data "a".data [] "hello".data))) ∈ evs := by
  refine ⟨0, _, rfl, ?_⟩
  exact claim_C10_no_trimming.2.2 envOK rawArgsWs
    ⟨" ios ".data, "prod".data, "t".data, "a".data, [], "hello".data,
     ".".data, "notice_update.json".data⟩ [] 0 _ rfl rfl

theorem claim_C2_witness :
    normalize_content_text (normalize_content_text "a\r\nb".data) =
      normalize_content_text "a\r\nb".data ∧
    (normalize_content_text "\r\n".data = "\n".data ∧
     normalize_content_text "\r".data = "\n".data ∧
     normalize_content_text "\\r\\n".data = "\n".data ∧
     normalize_content_text "\\n".data = "\n".data ∧
     normalize_content_text "\\r".data = "\n".data ∧
     normalize_content_text "`r`n".data = "\n".data ∧
     normalize_content_text "`n".data = "\n".data ∧
     normalize_content_text "`r".data = "\n".data) ∧
    (¬ "\r\n".data <:+: normalize_content_text "a\r\nb".data ∧
     ¬ "\r".data <:+: normalize_content_text "a\r\nb".data ∧
     ¬ "\\r\\n".data <:+: normalize_content_text "a\r\nb".data ∧
     ¬ "\\n".data <:+: normalize_content_text "a\r\nb".data ∧
     ¬ "\\r".data <:+: normalize_content_text "a\r\nb".data ∧
     ¬ "`r`n".data <:+: normalize_content_text "a\r\nb".data ∧
     ¬ "`n".data <:+: normalize_content_text "a\r\nb".data ∧
     ¬ "`r".data <:+: normalize_content_text "a\r\nb".data) :=
  claim_C2_normalize_idempotent "a\r\nb".data

theorem claim_C4_witness :
    build_command envC8 "/d".data "oss://b/".data "ossutil".data
        "/cfg".data true false =
      ["ossutil".data,
        if envC8.isDir "/d".data then "sync".data else "cp".data,
        "/d".data, "oss://b/".data]
        ++ (if "/cfg".data ≠ [] then ["-c".data, "/cfg".data] else [])
        ++ (if true then ["-f".data] else [])
        ++ (if false then ["-u".data] else []) ∧
    ((build_command envC8 "/d".data "oss://b/".data "ossutil".data
        "/cfg".data true false)[1]? = some "sync".data ↔
      envC8.isDir "/d".data = true) ∧
    ((build_command envC8 "/d".data "oss://b/".data "ossutil".data
        "/cfg".data true false)[1]? = some "cp".data ↔
      envC8.isDir "/d".data = false) :=
  claim_C4_build_command envC8 "/d".data "oss://b/".data "ossutil".data
    "/cfg".data true false
